import Mathlib

set_option linter.dupNamespace false

/-!
Verification of the seesaw_cli interactive session
(`src/binaries/seesaw_cli/main.go`).

The Go program is shallowly embedded: pure helpers (`commandChain`,
`autoComplete`, the `TrimSpace` of the read loop) become Lean functions;
the stateful terminal handling (`exit`, `fatalf`, `suspend`,
`terminalInit`) becomes explicit state passing over a `SessionSt` record
holding the terminal configuration and the saved `oldTermState`; the
side effects of `interactive` and `main` are recorded as explicit event
traces (`Ev`).  External collaborators (the `cli` Command Registry's
`FindCommand`/`Execute`, the `terminal` package, the engine connection)
are parameters of the embedding, following their documented contracts.
-/

/-- A command of the external command registry (`cli.Command`); only its
`Command` name field is used by `main.go`. -/
structure Command where
  Command : String
deriving DecidableEq, Repr

/-- Result quadruple of the external `cli.FindCommand(prefixText)`:
matched command or nil, candidate subcommands or nil, resolved chain,
remaining free-form arguments. -/
structure FindResult where
  cmd : Option Command
  subcmds : Option (List Command)
  chain : List Command
  args : List String
deriving DecidableEq, Repr

/-- A command-registry resolver, standing for `cli.FindCommand`. -/
def Resolver : Type := String → FindResult

/-- Embedding of `commandChain` (main.go lines 96-107): join the chain's
command names followed by the args with single spaces; when the list is
nonempty and there are no args, append one empty token first. -/
def commandChain (chain : List Command) (args : List String) : String :=
  let s := chain.map (fun c => c.Command) ++ args
  let s := if s.length > 0 && args.length == 0 then s ++ [""] else s
  String.intercalate " " s

/-- Control outcome of `autoComplete`: either it returns the triple
(newLine, newPos, ok), or it called `exit()` (Ctrl-C), which never
returns. -/
inductive AutoAction
  | ret (line : String) (pos : Nat) (ok : Bool)
  | exitCalled
deriving DecidableEq, Repr

/-- Observable result of one `autoComplete` invocation: the sequence of
`term.Write` calls it made, its control outcome, and whether it called
`suspend()`. -/
structure AutoResult where
  writes : List String
  action : AutoAction
  suspendCalled : Bool
deriving DecidableEq, Repr

/-- Key codes of the `switch` in `autoComplete`. -/
def keyCtrlA : Char := Char.ofNat 0x01
/-- Ctrl-C key code. -/
def keyCtrlC : Char := Char.ofNat 0x03
/-- Ctrl-E key code. -/
def keyCtrlE : Char := Char.ofNat 0x05
/-- Ctrl-I (Tab) key code. -/
def keyTab : Char := Char.ofNat 0x09
/-- Ctrl-U key code. -/
def keyCtrlU : Char := Char.ofNat 0x15
/-- Ctrl-Z key code. -/
def keyCtrlZ : Char := Char.ofNat 0x1a

/-- Embedding of `autoComplete` (main.go lines 111-146), parameterised
by the external registry resolver (`cli.FindCommand`) and the session
prompt (the global `prompt` written via `term.Write`).  Mirrors the Go
`switch key`: Ctrl-A moves to start, Ctrl-C calls `exit()`, Ctrl-E moves
to end, Tab resolves the whole `line` and replaces it with the chain
join, Ctrl-U clears, Ctrl-Z suspends and then falls through to the
default return, `?` resolves `line[0:pos]` and prints help; any other
key returns `("", 0, false)`. -/
def autoComplete (resolve : Resolver) (pr : String) (line : String) (pos : Nat)
    (key : Char) : AutoResult :=
  if key = keyCtrlA then
    ⟨[], .ret line 0 true, false⟩
  else if key = keyCtrlC then
    ⟨[], .exitCalled, false⟩
  else if key = keyCtrlE then
    ⟨[], .ret line line.length true, false⟩
  else if key = keyTab then
    let r := resolve line
    let newLine := commandChain r.chain r.args
    ⟨[], .ret newLine newLine.length true, false⟩
  else if key = keyCtrlU then
    ⟨[], .ret "" 0 true, false⟩
  else if key = keyCtrlZ then
    ⟨[], .ret "" 0 false, true⟩
  else if key = '?' then
    let r := resolve (line.take pos)
    let w1 := if r.cmd.isNone then [pr, line, "?\n"] else []
    let w2 :=
      match r.subcmds with
      | some cs => cs.flatMap (fun c => [" " ++ c.Command, "\n"])
      | none => if r.cmd.isNone then ["Unknown command.\n"] else []
    let newLine := commandChain r.chain r.args
    ⟨w1 ++ w2, .ret newLine newLine.length true, false⟩
  else
    ⟨[], .ret "" 0 false, false⟩

/-- Session-level events: writes to stdout and stderr, installing the
signal listener, entering raw mode, restoring the saved terminal state,
dispatching a command line to `seesawCLI.Execute`, stopping the process
with SIGTSTP, and process termination with an exit status. -/
inductive Ev
  | out (s : String)
  | errOut (s : String)
  | installSignal
  | makeRaw
  | restore
  | execute (cmd : String)
  | stopSelf
  | exit (code : Nat)
deriving DecidableEq, Repr

/-- Mutable process state relevant to terminal handling: the terminal's
current configuration (abstracted as a `Nat`) and the global
`oldTermState` (`none` standing for Go `nil`). -/
structure SessionSt where
  termConfig : Nat
  oldTermState : Option Nat
deriving DecidableEq, Repr

/-- The configuration `terminal.MakeRaw` switches the device to. -/
def rawConfig : Nat := 0

/-- Embedding of `exit()` (main.go lines 52-58): restore the saved
terminal state when one exists, print a newline, exit with status 0. -/
def exitRun (st : SessionSt) : SessionSt × List Ev :=
  match st.oldTermState with
  | some c => ({ st with termConfig := c }, [.restore, .out "\n", .exit 0])
  | none => (st, [.out "\n", .exit 0])

/-- Embedding of `fatalf` (main.go lines 60-67): restore the saved
terminal state when one exists, print the message and a newline to
stderr, exit with status 1. -/
def fatalfRun (msg : String) (st : SessionSt) : SessionSt × List Ev :=
  match st.oldTermState with
  | some c => ({ st with termConfig := c }, [.restore, .errOut msg, .errOut "\n", .exit 1])
  | none => (st, [.errOut msg, .errOut "\n", .exit 1])

/-- Embedding of `suspend()` (main.go lines 69-75): restore the saved
terminal state when one exists, then stop the process with SIGTSTP
(resume is scheduled separately). -/
def suspendRun (st : SessionSt) : SessionSt × List Ev :=
  match st.oldTermState with
  | some c => ({ st with termConfig := c }, [.restore, .stopSelf])
  | none => (st, [.stopSelf])

/-- Embedding of a successful `terminal.MakeRaw` inside `terminalInit`
(main.go lines 84-94): capture the current configuration into
`oldTermState` and switch the device to raw. -/
def makeRawRun (st : SessionSt) : SessionSt × List Ev :=
  ({ termConfig := rawConfig, oldTermState := some st.termConfig }, [.makeRaw])

/-- One suspend/resume cycle on the session state: `suspend()` restores
the terminal, and the scheduled `resume()` re-runs `terminalInit`, whose
successful `MakeRaw` captures the (restored) configuration again. -/
def cycleRun (st : SessionSt) : SessionSt :=
  (makeRawRun (suspendRun st).1).1

/-- Iterated suspend/resume cycles. -/
def cyclesRun : Nat → SessionSt → SessionSt
  | 0, st => st
  | n + 1, st => cyclesRun n (cycleRun st)

/-- The exit paths of the session after raw mode has been entered:
normal end-of-input (read error breaks the loop and `main` calls
`exit()`), the quit command (the `cli` registry invokes the `exit`
callback passed to `NewSeesawCLI`), a terminating signal (the signal
goroutine calls `exit()`), or a fatal error (`fatalf`). -/
inductive ExitPath
  | eof
  | quitCmd
  | signal
  | fatal (msg : String)
deriving DecidableEq, Repr

/-- Run the given exit path on the session state. -/
def runExitPath : ExitPath → SessionSt → SessionSt × List Ev
  | .eof, st => exitRun st
  | .quitCmd, st => exitRun st
  | .signal, st => exitRun st
  | .fatal msg, st => fatalfRun msg st

/-- Whitespace as recognised by Go `unicode.IsSpace` on the characters
relevant here (space, tab, newline, vertical tab, form feed, carriage
return, NEL, no-break space). -/
def isSpaceGo (c : Char) : Bool :=
  c = ' ' || c = '\t' || c = '\n' || c.toNat = 0x0b || c.toNat = 0x0c ||
    c = '\r' || c.toNat = 0x85 || c.toNat = 0xa0

/-- Embedding of Go `strings.TrimSpace`: drop leading and trailing
whitespace characters. -/
def trimSpace (s : String) : String :=
  ⟨((s.data.dropWhile isSpaceGo).reverse.dropWhile isSpaceGo).reverse⟩

/-- Outcome of the external `seesawCLI.Execute`: `none` for success,
`some err` for a failure description. -/
def Executor : Type := String → Option String

/-- Embedding of the read loop of `interactive` (main.go lines 184-198):
each iteration reads a line (the end of the list is the read error that
breaks the loop), trims it, silently skips it when the trim is empty,
and otherwise dispatches it to `seesawCLI.Execute`, printing a failing
execution's error with `fmt.Println`. -/
def loopRun (execRes : Executor) : List String → List Ev
  | [] => []
  | l :: rest =>
    let t := trimSpace l
    if t = "" then loopRun execRes rest
    else
      Ev.execute t ::
        ((match execRes t with
          | some e => [Ev.out (e ++ "\n")]
          | none => []) ++ loopRun execRes rest)

/-- The commands a trace dispatched to `seesawCLI.Execute`. -/
def executedCmds (evs : List Ev) : List String :=
  evs.filterMap (fun e => match e with | .execute s => some s | _ => none)

/-- The stdout writes of a trace. -/
def stdoutOf (evs : List Ev) : List String :=
  evs.filterMap (fun e => match e with | .out s => some s | _ => none)

/-- Results of the engine/identity calls made at the start of
`interactive`: `ClusterStatus` (version and site), `user.Current`
(username) and `HAStatus` (whether this node is master); each can fail
with an error description. -/
structure EngineInfo where
  clusterStatus : Except String (Nat × String)
  currentUser : Except String String
  haState : Except String Bool

/-- Embedding of `interactive` (main.go lines 149-199) as a trace: query
cluster status, print the banner, look up the user, query HA status and
possibly warn, build the prompt, install the signal listener, run
`terminalInit` (whose `MakeRaw` may fail, in which case `oldTermState`
is overwritten with nil and `fatalf` runs), then the read loop.  Returns
the final state, the trace, and whether the process already terminated
(via `fatalf`). -/
def interactiveRun (eng : EngineInfo) (mkRaw : Except String Unit)
    (execRes : Executor) (inputs : List String) (st : SessionSt) :
    SessionSt × List Ev × Bool :=
  match eng.clusterStatus with
  | .error e =>
    let (st', evs) := fatalfRun ("Failed to get cluster status: " ++ e) st
    (st', evs, true)
  | .ok (v, _site) =>
    let banner := [Ev.out ("\nSeesaw CLI - Engine version " ++ toString v ++ "\n\n")]
    match eng.currentUser with
    | .error e =>
      let (st', evs) := fatalfRun ("Failed to get current user: " ++ e) st
      (st', banner ++ evs, true)
    | .ok _uname =>
      match eng.haState with
      | .error e =>
        let (st', evs) := fatalfRun ("Failed to get HA status: " ++ e) st
        (st', banner ++ evs, true)
      | .ok isMaster =>
        let warn :=
          if isMaster then []
          else [Ev.out "WARNING: This seesaw is not currently the master.\n"]
        match mkRaw with
        | .error e =>
          let st' := { st with oldTermState := none }
          let (st'', evs) := fatalfRun ("Failed to get raw terminal: " ++ e) st'
          (st'', banner ++ warn ++ [Ev.installSignal] ++ evs, true)
        | .ok _ =>
          let (st', evs) := makeRawRun st
          (st', banner ++ warn ++ [Ev.installSignal] ++ evs ++ loopRun execRes inputs,
            false)

/-- Embedding of `main` (main.go lines 201-230): connect and dial the
engine (each failure is fatal); with an empty `-c` flag run
`interactive` and then `exit()`; with a command supplied run `Execute`
exactly once, calling `fatalf` on failure and otherwise returning
normally, which ends the process with status 0. -/
def mainRun (command : String) (connRes dialRes : Except String Unit)
    (eng : EngineInfo) (mkRaw : Except String Unit) (execRes : Executor)
    (inputs : List String) (st : SessionSt) : SessionSt × List Ev :=
  match connRes with
  | .error e => fatalfRun ("Failed to connect to engine: " ++ e) st
  | .ok _ =>
    match dialRes with
    | .error e => fatalfRun ("Failed to connect to engine: " ++ e) st
    | .ok _ =>
      if command = "" then
        let (st', evs, dead) := interactiveRun eng mkRaw execRes inputs st
        if dead then (st', evs)
        else
          let (st'', evs') := exitRun st'
          (st'', evs ++ evs')
      else
        match execRes command with
        | some e =>
          let (st', evs) := fatalfRun e st
          (st', Ev.execute command :: evs)
        | none => (st, [Ev.execute command, Ev.exit 0])

/-- A concrete resolver that resolves `"a"` to the command `alpha` and
any other text to no command with one remaining argument. -/
def resolverTab : Resolver := fun s =>
  if s = "a" then ⟨some ⟨"alpha"⟩, none, [⟨"alpha"⟩], []⟩
  else ⟨none, none, [], ["ab"]⟩

/-- A concrete resolver that never matches anything. -/
def resolverNoMatch : Resolver := fun _ => ⟨none, none, [], []⟩

/-- A concrete resolver that resolves every text to the command `show`
with the two candidate subcommands `vservers` and `nodes`. -/
def resolverAmb : Resolver :=
  fun _ => ⟨some ⟨"show"⟩, some [⟨"vservers"⟩, ⟨"nodes"⟩], [⟨"show"⟩], []⟩

/-- A concrete engine whose startup calls all succeed. -/
def engOk : EngineInfo := ⟨.ok (1, "site1"), .ok "admin", .ok true⟩

/-- A concrete executor for which every command succeeds. -/
def execNone : Executor := fun _ => none

/-! Helper lemmas shared across the claims. -/

/-- Appending one element to the list extends the intercalation
accumulator by one separator and that element. -/
theorem intercalate_go_append (acc sep x : String) (l : List String) :
    String.intercalate.go acc sep (l ++ [x]) =
      String.intercalate.go acc sep l ++ sep ++ x := by
  induction l generalizing acc with
  | nil => simp [String.intercalate.go]
  | cons a t ih => simp [String.intercalate.go, ih]

/-- Intercalating a nonempty list extended by one element appends the
separator and that element. -/
theorem intercalate_append_last (sep x a : String) (l : List String) :
    String.intercalate sep ((a :: l) ++ [x]) =
      String.intercalate sep (a :: l) ++ sep ++ x := by
  simp [String.intercalate, intercalate_go_append]

/-- String.join over a foldl with an accumulator. -/
theorem string_foldl_append (l : List String) (acc : String) :
    List.foldl (fun r s => r ++ s) acc l = acc ++ String.join l := by
  induction l generalizing acc with
  | nil => simp [String.join]
  | cons a t ih =>
    show List.foldl (fun r s => r ++ s) (acc ++ a) t = _
    rw [ih]
    show acc ++ a ++ String.join t = acc ++ List.foldl (fun r s => r ++ s) ("" ++ a) t
    rw [ih, String.append_assoc]
    simp

/-- String.join distributes over cons. -/
theorem string_join_cons (a : String) (l : List String) :
    String.join (a :: l) = a ++ String.join l := by
  show List.foldl (fun r s => r ++ s) ("" ++ a) l = _
  rw [string_foldl_append]
  simp

/-- String.join distributes over append. -/
theorem string_join_append (l₁ l₂ : List String) :
    String.join (l₁ ++ l₂) = String.join l₁ ++ String.join l₂ := by
  induction l₁ with
  | nil => simp [String.join]
  | cons a t ih => simp [string_join_cons, ih, String.append_assoc]

/-- String.join of the empty list is the empty string. -/
theorem string_join_nil : String.join [] = "" := rfl

/-- Joining the two-writes-per-candidate output of the ambiguous help
branch equals joining one line per candidate. -/
theorem string_join_flatMap_pair (cs : List Command) :
    String.join (cs.flatMap (fun c => [" " ++ c.Command, "\n"])) =
      String.join (cs.map (fun c => " " ++ c.Command ++ "\n")) := by
  induction cs with
  | nil => rfl
  | cons c t ih =>
    simp only [List.flatMap_cons, List.map_cons]
    rw [string_join_append, string_join_cons, string_join_cons, string_join_cons, ih]
    simp [string_join_nil, String.append_assoc]

/-- C2, counterexample: on the empty chain with zero free-form
arguments, `commandChain` appends no empty token — the result is the
empty string, which does not end with a trailing space. -/
theorem C2_counterexample :
    commandChain ([] : List Command) [] = "" ∧
      ("" : String).endsWith " " = false := by
  constructor
  · rfl
  · decide

/-- C2, amended: for every NONEMPTY chain with zero free-form
arguments, `commandChain` appends exactly one empty token, so the
result is the space-joined command tokens followed by a trailing
space; with at least one free-form argument it is the plain
space-join of tokens and arguments, and the two concrete examples of
the claim hold. -/
theorem C2_amended :
    (∀ (c : Command) (cs : List Command),
      commandChain (c :: cs) [] =
        String.intercalate " " ((c :: cs).map (fun x => x.Command)) ++ " ") ∧
    (∀ (chain : List Command) (a : String) (args : List String),
      commandChain chain (a :: args) =
        String.intercalate " " (chain.map (fun x => x.Command) ++ a :: args)) ∧
    commandChain [⟨"show"⟩, ⟨"status"⟩] [] = "show status " ∧
    commandChain [⟨"show"⟩] ["eth0"] = "show eth0" := by
  refine ⟨fun c cs => ?_, fun chain a args => ?_, rfl, rfl⟩
  · have h : commandChain (c :: cs) [] =
        String.intercalate " " ((c.Command :: cs.map (fun x => x.Command)) ++ [""]) := by
      simp [commandChain]
    rw [h, intercalate_append_last]
    simp
  · simp [commandChain]

/-- C3, counterexample: with the cursor after the first character of
the line `"ab"`, the Tab trigger resolves the WHOLE line (yielding the
chain-join `"ab"`), not the text `"a"` left of the cursor, which would
resolve to the chain-join `"alpha "`. -/
theorem C3_counterexample :
    (autoComplete resolverTab "p> " "ab" 1 keyTab).action =
        AutoAction.ret "ab" 2 true ∧
      commandChain (resolverTab (("ab" : String).take 1)).chain
          (resolverTab (("ab" : String).take 1)).args = "alpha " ∧
      ("ab" : String) ≠ "alpha " := by
  refine ⟨rfl, rfl, by decide⟩

/-- C3, amended: for every resolver, prompt, line and cursor position,
the Tab trigger resolves the ENTIRE line against the registry,
replaces the line with the chain-join of the resolution, puts the
cursor at the end of the new line, and prints nothing. -/
theorem C3_amended (resolve : Resolver) (pr line : String) (pos : Nat) :
    autoComplete resolve pr line pos keyTab =
      ⟨[], .ret (commandChain (resolve line).chain (resolve line).args)
        (commandChain (resolve line).chain (resolve line).args).length true,
        false⟩ := by
  rfl

/-- C4, counterexample: on a zero-match resolution the help trigger
writes the prompt, the typed line and the question mark onto ONE output
line (`"p> sh?"`), so no output line consists of only `"?"`. -/
theorem C4_counterexample :
    String.join (autoComplete resolverNoMatch "p> " "sh" 2 '?').writes =
        "p> sh?\nUnknown command.\n" ∧
      ¬ (("?\n" : String).data <+: ("p> sh?\nUnknown command.\n" : String).data) ∧
      ¬ (("\n?\n" : String).data <:+: ("p> sh?\nUnknown command.\n" : String).data) := by
  refine ⟨rfl, by decide, by decide⟩

/-- C4, amended: for every input line whose text left of the cursor
resolves to no command and no candidate subcommands, the help trigger
prints, in this order: the Prompt, the originally typed line and a
question mark (all on one output line, terminated by a newline), then
the text "Unknown command." on its own line; the line is replaced with
the chain-join of the resolution with the cursor at its end. -/
theorem C4_amended (resolve : Resolver) (pr line : String) (pos : Nat)
    (hcmd : (resolve (line.take pos)).cmd = none)
    (hsub : (resolve (line.take pos)).subcmds = none) :
    String.join (autoComplete resolve pr line pos '?').writes =
        pr ++ line ++ "?\n" ++ "Unknown command.\n" ∧
      (autoComplete resolve pr line pos '?').action =
        .ret (commandChain (resolve (line.take pos)).chain
            (resolve (line.take pos)).args)
          (commandChain (resolve (line.take pos)).chain
            (resolve (line.take pos)).args).length true := by
  constructor
  · show String.join (autoComplete resolve pr line pos '?').writes = _
    have h : (autoComplete resolve pr line pos '?').writes =
        [pr, line, "?\n", "Unknown command.\n"] := by
      simp [autoComplete, keyCtrlA, keyCtrlC, keyCtrlE, keyTab, keyCtrlU, keyCtrlZ,
        hcmd, hsub]
    rw [h]
    simp [string_join_cons, string_join_nil, String.append_assoc]
  · simp [autoComplete, keyCtrlA, keyCtrlC, keyCtrlE, keyTab, keyCtrlU, keyCtrlZ]

/-- C4, witness: the amended theorem applied to the concrete
never-matching resolver, prompt `"p> "`, line `"sh"` and cursor 2. -/
theorem C4_witness :
    String.join (autoComplete resolverNoMatch "p> " "sh" 2 '?').writes =
        "p> " ++ "sh" ++ "?\n" ++ "Unknown command.\n" ∧
      (autoComplete resolverNoMatch "p> " "sh" 2 '?').action =
        .ret (commandChain (resolverNoMatch (("sh" : String).take 2)).chain
            (resolverNoMatch (("sh" : String).take 2)).args)
          (commandChain (resolverNoMatch (("sh" : String).take 2)).chain
            (resolverNoMatch (("sh" : String).take 2)).args).length true :=
  C4_amended resolverNoMatch "p> " "sh" 2 rfl rfl

/-- C5, counterexample: on an ambiguous resolution (candidates
`vservers`, `nodes`, resolved chain `show`) the help trigger does NOT
leave the line `"sh"` unchanged — it replaces it with the chain-join
`"show "` — and each candidate is printed with a leading space, so the
output is `" vservers\n nodes\n"` and not `"vservers\nnodes\n"`. -/
theorem C5_counterexample :
    (autoComplete resolverAmb "p> " "sh" 2 '?').action =
        AutoAction.ret "show " 5 true ∧
      ("show " : String) ≠ "sh" ∧
      String.join (autoComplete resolverAmb "p> " "sh" 2 '?').writes =
        " vservers\n nodes\n" ∧
      (" vservers\n nodes\n" : String) ≠ "vservers\nnodes\n" := by
  refine ⟨rfl, by decide, rfl, by decide⟩

/-- C5, amended: for every input line whose text left of the cursor
resolves to candidate subcommands, the help trigger prints every
candidate name, one per line, in registry order, each preceded by a
single space (preceded by the prompt, line and question mark when no
command matched), and replaces the line with the chain-join of the
resolution with the cursor at its end. -/
theorem C5_amended (resolve : Resolver) (pr line : String) (pos : Nat)
    (cs : List Command)
    (hsub : (resolve (line.take pos)).subcmds = some cs) :
    String.join (autoComplete resolve pr line pos '?').writes =
        String.join (if (resolve (line.take pos)).cmd.isNone
            then [pr, line, "?\n"] else []) ++
          String.join (cs.map (fun c => " " ++ c.Command ++ "\n")) ∧
      (autoComplete resolve pr line pos '?').action =
        .ret (commandChain (resolve (line.take pos)).chain
            (resolve (line.take pos)).args)
          (commandChain (resolve (line.take pos)).chain
            (resolve (line.take pos)).args).length true := by
  constructor
  · have h : (autoComplete resolve pr line pos '?').writes =
        (if (resolve (line.take pos)).cmd.isNone then [pr, line, "?\n"] else []) ++
          cs.flatMap (fun c => [" " ++ c.Command, "\n"]) := by
      simp [autoComplete, keyCtrlA, keyCtrlC, keyCtrlE, keyTab, keyCtrlU, keyCtrlZ,
        hsub]
    rw [h, string_join_append, string_join_flatMap_pair]
  · simp [autoComplete, keyCtrlA, keyCtrlC, keyCtrlE, keyTab, keyCtrlU, keyCtrlZ]

/-- C5, witness: the amended theorem applied to the concrete ambiguous
resolver, prompt `"p> "`, line `"sh"` and cursor 2. -/
theorem C5_witness :
    String.join (autoComplete resolverAmb "p> " "sh" 2 '?').writes =
        String.join (if (resolverAmb (("sh" : String).take 2)).cmd.isNone
            then ["p> ", "sh", "?\n"] else []) ++
          String.join ([⟨"vservers"⟩, ⟨"nodes"⟩].map
            (fun c => " " ++ Command.Command c ++ "\n")) ∧
      (autoComplete resolverAmb "p> " "sh" 2 '?').action =
        .ret (commandChain (resolverAmb (("sh" : String).take 2)).chain
            (resolverAmb (("sh" : String).take 2)).args)
          (commandChain (resolverAmb (("sh" : String).take 2)).chain
            (resolverAmb (("sh" : String).take 2)).args).length true :=
  C5_amended resolverAmb "p> " "sh" 2 [⟨"vservers"⟩, ⟨"nodes"⟩] rfl

/-- The commands the read loop dispatches are exactly the trimmed
nonblank input lines, in order. -/
theorem loop_executed (execRes : Executor) (inputs : List String) :
    executedCmds (loopRun execRes inputs) =
      (inputs.map trimSpace).filter (fun t => t != "") := by
  induction inputs with
  | nil => rfl
  | cons l rest ih =>
    by_cases hl : trimSpace l = ""
    · simp [loopRun, hl, ih]
    · have hb : (trimSpace l != "") = true := by
        simp [bne, hl]
      cases he : execRes (trimSpace l) with
      | some e =>
        simp [loopRun, hl, he, executedCmds, List.filterMap_append, ih,
          List.filter_cons, hb]
        exact ih ▸ rfl
      | none =>
        simp [loopRun, hl, he, executedCmds, List.filterMap_append, ih,
          List.filter_cons, hb]
        exact ih ▸ rfl

/-- C6: every finalized input line is trimmed of surrounding
whitespace before dispatch — the commands reaching `Execute` are
exactly the trimmed nonblank lines in order — and a line whose trim is
empty is silently discarded: the loop behaves exactly as if that line
had never been read, so `Execute` is never invoked for it. -/
theorem C6_loop (execRes : Executor) (l : String) (rest : List String) :
    executedCmds (loopRun execRes (l :: rest)) =
        ((l :: rest).map trimSpace).filter (fun t => t != "") ∧
      (trimSpace l = "" → loopRun execRes (l :: rest) = loopRun execRes rest) := by
  refine ⟨loop_executed execRes (l :: rest), fun hl => ?_⟩
  simp [loopRun, hl]

/-- C6, witness: the theorem applied to the always-succeeding executor,
the whitespace-only line `"  "` and the remaining input `["x"]`. -/
theorem C6_witness :
    trimSpace "  " = "" ∧
      loopRun execNone ["  ", "x"] = loopRun execNone ["x"] :=
  ⟨by decide, (C6_loop execNone "  " ["x"]).2 (by decide)⟩

/-- C7: in one-shot mode (nonempty `-c` command, engine connection and
dial successful, no prior raw capture) `Execute` is invoked exactly
once, the interactive machinery (signal listener, raw mode) is never
entered, a failing execution prints the failure to stderr and exits
with status 1, and a successful one ends the process with status 0. -/
theorem C7_oneshot (command : String) (eng : EngineInfo)
    (mkRaw : Except String Unit) (execRes : Executor) (inputs : List String)
    (st : SessionSt) (hc : command ≠ "") (hst : st.oldTermState = none) :
    executedCmds (mainRun command (.ok ()) (.ok ()) eng mkRaw execRes inputs st).2 =
        [command] ∧
      Ev.installSignal ∉ (mainRun command (.ok ()) (.ok ()) eng mkRaw execRes inputs st).2 ∧
      Ev.makeRaw ∉ (mainRun command (.ok ()) (.ok ()) eng mkRaw execRes inputs st).2 ∧
      (∀ e, execRes command = some e →
        (mainRun command (.ok ()) (.ok ()) eng mkRaw execRes inputs st).2 =
          [Ev.execute command, Ev.errOut e, Ev.errOut "\n", Ev.exit 1]) ∧
      (execRes command = none →
        (mainRun command (.ok ()) (.ok ()) eng mkRaw execRes inputs st).2 =
          [Ev.execute command, Ev.exit 0]) := by
  cases he : execRes command with
  | some e =>
    simp [mainRun, hc, he, fatalfRun, hst, executedCmds]
  | none =>
    simp [mainRun, hc, he, executedCmds]

/-- C7, witness: the theorem applied to the command `"show vservers"`,
the all-succeeding engine and executor, empty input, and the initial
session state with no saved terminal configuration. -/
theorem C7_witness :
    ("show vservers" : String) ≠ "" ∧
      (SessionSt.mk 5 none).oldTermState = none ∧
      executedCmds (mainRun "show vservers" (.ok ()) (.ok ()) engOk (.ok ())
          execNone [] ⟨5, none⟩).2 = ["show vservers"] :=
  ⟨by decide, rfl,
    (C7_oneshot "show vservers" engOk (.ok ()) execNone [] ⟨5, none⟩
      (by decide) rfl).1⟩

/-- The `fatalf` trace never enters raw mode. -/
theorem makeRaw_not_in_fatalf (msg : String) (st : SessionSt) :
    Ev.makeRaw ∉ (fatalfRun msg st).2 := by
  cases h : st.oldTermState <;> simp [fatalfRun, h]

/-- C8: in every interactive session, whenever raw mode is entered the
signal listener was installed strictly before it — the trace splits at
an `installSignal` event with no `makeRaw` before it and the `makeRaw`
after it — so no terminating signal arriving after raw-mode entry lacks
a clean-shutdown path. -/
theorem C8_ordering (eng : EngineInfo) (mkRaw : Except String Unit)
    (execRes : Executor) (inputs : List String) (st : SessionSt)
    (h : Ev.makeRaw ∈ (interactiveRun eng mkRaw execRes inputs st).2.1) :
    ∃ l₁ l₂, (interactiveRun eng mkRaw execRes inputs st).2.1 =
        l₁ ++ Ev.installSignal :: l₂ ∧
      Ev.makeRaw ∉ l₁ ∧ Ev.makeRaw ∈ l₂ := by
  obtain ⟨cs, cu, ha⟩ := eng
  cases cs with
  | error e =>
    exact absurd h (makeRaw_not_in_fatalf _ _)
  | ok vs =>
    obtain ⟨v, site⟩ := vs
    cases cu with
    | error e =>
      cases hst : st.oldTermState <;> simp [interactiveRun, fatalfRun, hst] at h
    | ok uname =>
      cases ha with
      | error e =>
        cases hst : st.oldTermState <;> simp [interactiveRun, fatalfRun, hst] at h
      | ok isMaster =>
        cases mkRaw with
        | error e =>
          cases isMaster <;> simp [interactiveRun, fatalfRun] at h
        | ok u =>
          refine ⟨[Ev.out ("\nSeesaw CLI - Engine version " ++ toString v ++ "\n\n")] ++
              (if isMaster then []
               else [Ev.out "WARNING: This seesaw is not currently the master.\n"]),
            Ev.makeRaw :: loopRun execRes inputs, ?_, ?_, ?_⟩
          · cases isMaster <;> simp [interactiveRun, makeRawRun]
          · cases isMaster <;> simp
          · simp

/-- C8, witness: a concrete fully successful session with no input, in
which raw mode is entered. -/
theorem C8_witness :
    Ev.makeRaw ∈ (interactiveRun engOk (.ok ()) execNone [] ⟨5, none⟩).2.1 ∧
      ∃ l₁ l₂, (interactiveRun engOk (.ok ()) execNone [] ⟨5, none⟩).2.1 =
          l₁ ++ Ev.installSignal :: l₂ ∧
        Ev.makeRaw ∉ l₁ ∧ Ev.makeRaw ∈ l₂ :=
  ⟨by decide, C8_ordering engOk (.ok ()) execNone [] ⟨5, none⟩ (by decide)⟩

/-- C9, counterexample: when raw-mode acquisition fails at session
start, stdout is NOT empty at the abort — the engine-version banner was
already printed before the raw-mode attempt. -/
theorem C9_counterexample :
    stdoutOf (interactiveRun engOk (.error "e") execNone [] ⟨5, none⟩).2.1 ≠ [] ∧
      (interactiveRun engOk (.error "e") execNone [] ⟨5, none⟩).2.1 =
        [Ev.out "\nSeesaw CLI - Engine version 1\n\n", Ev.installSignal,
          Ev.errOut "Failed to get raw terminal: e", Ev.errOut "\n", Ev.exit 1] := by
  refine ⟨by decide, rfl⟩

/-- C9, amended: if entering raw terminal mode fails at session start
(after the successful engine and identity calls, which already printed
the banner and possibly the master warning), the process prints a
diagnostic to the error stream and terminates with status 1, producing
no further standard output and performing no terminal restore — the
failed capture left the saved state nil, so there is nothing to
restore. -/
theorem C9_amended (v : Nat) (site uname : String) (isMaster : Bool)
    (e : String) (eng : EngineInfo) (execRes : Executor)
    (inputs : List String) (st : SessionSt)
    (hcs : eng.clusterStatus = .ok (v, site))
    (hcu : eng.currentUser = .ok uname)
    (hha : eng.haState = .ok isMaster) :
    interactiveRun eng (.error e) execRes inputs st =
      ({ st with oldTermState := none },
        Ev.out ("\nSeesaw CLI - Engine version " ++ toString v ++ "\n\n") ::
          ((if isMaster then []
            else [Ev.out "WARNING: This seesaw is not currently the master.\n"]) ++
            [Ev.installSignal, Ev.errOut ("Failed to get raw terminal: " ++ e),
              Ev.errOut "\n", Ev.exit 1]),
        true) := by
  obtain ⟨cs, cu, ha⟩ := eng
  simp only at hcs hcu hha
  subst hcs hcu hha
  cases isMaster <;> simp [interactiveRun, fatalfRun]

/-- C9, witness: the amended theorem applied to the concrete successful
engine and a failing raw-mode acquisition. -/
theorem C9_witness :
    interactiveRun engOk (.error "boom") execNone [] ⟨5, none⟩ =
      (⟨5, none⟩,
        Ev.out "\nSeesaw CLI - Engine version 1\n\n" ::
          ([] ++ [Ev.installSignal, Ev.errOut "Failed to get raw terminal: boom",
            Ev.errOut "\n", Ev.exit 1]),
        true) :=
  C9_amended 1 "site1" "admin" true "boom" engOk execNone [] ⟨5, none⟩ rfl rfl rfl

/-- Suspend/resume cycles leave the raw session state (raw
configuration, captured original) unchanged. -/
theorem cycles_fixed (n : Nat) (c : Nat) :
    cyclesRun n ⟨rawConfig, some c⟩ = ⟨rawConfig, some c⟩ := by
  induction n with
  | zero => rfl
  | succ n ih =>
    show cyclesRun n (cycleRun ⟨rawConfig, some c⟩) = _
    exact ih

/-- C1: on every exit path taken after raw mode has been entered at
session start (normal end-of-input, quit command, terminating signal,
or fatal error), through any number of suspend/resume cycles, the
terminal configuration is restored to the one captured at session
start, and the restore happens before the process-terminating exit. -/
theorem C1_restore (c₀ : Nat) (old : Option Nat) (n : Nat) (p : ExitPath) :
    (runExitPath p (cyclesRun n (makeRawRun ⟨c₀, old⟩).1)).1.termConfig = c₀ ∧
      ∃ mid code, (runExitPath p (cyclesRun n (makeRawRun ⟨c₀, old⟩).1)).2 =
        Ev.restore :: mid ++ [Ev.exit code] := by
  have h1 : (makeRawRun ⟨c₀, old⟩).1 = (⟨rawConfig, some c₀⟩ : SessionSt) := rfl
  rw [h1, cycles_fixed]
  cases p with
  | eof => exact ⟨rfl, [Ev.out "\n"], 0, rfl⟩
  | quitCmd => exact ⟨rfl, [Ev.out "\n"], 0, rfl⟩
  | signal => exact ⟨rfl, [Ev.out "\n"], 0, rfl⟩
  | fatal msg => exact ⟨rfl, [Ev.errOut msg, Ev.errOut "\n"], 1, rfl⟩

/-- C10: `exit`, `fatalf` and `suspend` emit a terminal restore exactly
when a prior raw-mode capture succeeded (`oldTermState` non-nil), and
the terminal configuration they leave is the captured one when it
exists and the unchanged current one otherwise — so before any
successful capture these paths perform no terminal-mode operation. -/
theorem C10_guarded (st : SessionSt) (msg : String) :
    (Ev.restore ∈ (exitRun st).2 ↔ st.oldTermState.isSome = true) ∧
      (Ev.restore ∈ (fatalfRun msg st).2 ↔ st.oldTermState.isSome = true) ∧
      (Ev.restore ∈ (suspendRun st).2 ↔ st.oldTermState.isSome = true) ∧
      (exitRun st).1 = { st with termConfig := st.oldTermState.getD st.termConfig } ∧
      (fatalfRun msg st).1 = { st with termConfig := st.oldTermState.getD st.termConfig } ∧
      (suspendRun st).1 = { st with termConfig := st.oldTermState.getD st.termConfig } := by
  obtain ⟨tc, ots⟩ := st
  cases ots <;> simp [exitRun, fatalfRun, suspendRun]
